import Mathlib

/-!
# ambassador: a caching HTTP intermediary

A shallow embedding of `ambassador.go` (package `ambassador`) and of the parts of
the Go libraries its behaviour depends on (`net/http` headers, `time.Parse` for the
one layout the program uses, `time.Time.Sub`, and the `go-cache` store), followed
by theorems about key derivation, freshness computation, storing, replaying and
forwarding.

Go strings are Lean strings; byte slices are lists of `UInt8`; `time.Time` is the
number of nanoseconds since 0001-01-01 00:00:00 UTC (the instant Go calls the zero
time); `time.Duration` is an `Int` of nanoseconds kept inside the `int64` range.
Logging calls have no effect on the state and are left out.
-/

set_option linter.dupNamespace false

namespace Ambassador

/-! ## `net/http` headers -/

/-- Go `http.Header`, a `map[string][]string`: an association list whose first binding
of a key is the live one. -/
abbrev Header := List (String × List String)

/-- Go `textproto.validHeaderFieldByte`: the RFC 7230 token characters
(letters, digits and ``!#$%&'*+-.^_`|~``). -/
def validHeaderFieldByte (c : Char) : Bool :=
  c.isAlphanum || [33, 35, 36, 37, 38, 39, 42, 43, 45, 46, 94, 95, 96, 124, 126].contains c.toNat

/-- The rewriting loop of `textproto.canonicalMIMEHeaderKey`: upper case for the first
letter and for a letter after a dash, lower case for every other letter. -/
def canonLoop : Bool → List Char → List Char
  | _, [] => []
  | upper, c :: cs =>
    let c1 := if upper && c.isLower then c.toUpper
              else if !upper && c.isUpper then c.toLower else c
    c1 :: canonLoop (c1 == '-') cs

/-- Go `textproto.CanonicalMIMEHeaderKey`: a key holding a byte that is not a token
character is returned unchanged, any other key is put in canonical case. -/
def CanonicalMIMEHeaderKey (s : String) : String :=
  if s.data.all validHeaderFieldByte then ⟨canonLoop true s.data⟩ else s

/-- Go `http.Header.Get`: the first value under the canonical form of `key`, or `""`. -/
def Header.Get (h : Header) (key : String) : String :=
  match h.lookup (CanonicalMIMEHeaderKey key) with
  | some (v :: _) => v
  | _ => ""

/-- Go `http.Header.Set`: the canonical form of `key` is bound to the single value. -/
def Header.Set (h : Header) (key value : String) : Header :=
  (CanonicalMIMEHeaderKey key, [value]) ::
    h.filter (fun kv => kv.1 != CanonicalMIMEHeaderKey key)

/-! ## Requests -/

/-- The fields of `url.URL` the program touches. -/
structure URL where
  Scheme : String
  Host : String
  Path : String
  deriving DecidableEq, Repr

/-- The fields of `http.Request` the program touches. -/
structure Request where
  Method : String
  URL : URL
  Header : Header
  Host : String
  RequestURI : String
  deriving DecidableEq, Repr

/-- Function `getURL`: `fmt.Sprintf("%s%s%s", "http://", req.Host, req.RequestURI)`. -/
def getURL (req : Request) : String :=
  "http://" ++ req.Host ++ req.RequestURI

/-! ## `time`: instants, durations and `time.Parse` for the program's layout -/

/-- Go `time.Duration`: nanoseconds, an `int64`. -/
abbrev Duration := Int

/-- Go `time.Second`. -/
def Second : Duration := 1000000000

/-- Go `time.Minute`. -/
def Minute : Duration := 60 * Second

/-- The largest `time.Duration`, `1<<63 - 1`. -/
def maxDuration : Duration := 2 ^ 63 - 1

/-- The smallest `time.Duration`, `-1 << 63`. -/
def minDuration : Duration := -(2 : Int) ^ 63

/-- Go `time.Time` as an instant: nanoseconds since 0001-01-01 00:00:00 UTC. -/
structure Time where
  nanos : Int
  deriving DecidableEq, Repr

/-- The zero value `time.Time{}`. -/
def Time.zero : Time := ⟨0⟩

/-- Go `Time.IsZero`: the instant is January 1, year 1, 00:00:00 UTC. -/
def Time.IsZero (t : Time) : Bool := t.nanos == 0

/-- Go `Time.Sub`: the difference `t - u`, or the largest (smallest) duration when the
difference does not fit in an `int64`. -/
def Time.Sub (t u : Time) : Duration :=
  let d := t.nanos - u.nanos
  if d < minDuration then minDuration
  else if maxDuration < d then maxDuration
  else d

/-- Go `Time.Add`. -/
def Time.Add (t : Time) (d : Duration) : Time := ⟨t.nanos + d⟩

/-- Wrap-around of `int64` arithmetic. -/
def wrapInt64 (x : Int) : Int := (x + 2 ^ 63) % 2 ^ 64 - 2 ^ 63

/-- Seconds between 0001-01-01 and 1970-01-01 (`unixToInternal`). -/
def unixToInternal : Int := 62135596800

/-- Go `Time.UnixNano`: nanoseconds since 1970-01-01 UTC, computed in `int64`. -/
def Time.UnixNano (t : Time) : Int := wrapInt64 (t.nanos - unixToInternal * 1000000000)

/-- Go `time.isDigit`: the byte at index `i` exists and is a decimal digit. -/
def isDigit (s : List Char) (i : Nat) : Bool :=
  match s.get? i with
  | some c => decide ('0' ≤ c) && decide (c ≤ '9')
  | none => false

/-- The value of a decimal digit, `int(c - '0')`. -/
def digitVal (c : Char) : Int := (c.toNat : Int) - 48

/-- Go `time.getnum`: a one- or two-digit number; exactly two digits when `fixed`. -/
def getnum (s : List Char) (fixed : Bool) : Option (Int × List Char) :=
  if !isDigit s 0 then none
  else if !isDigit s 1 then
    if fixed then none else some (digitVal (s.getD 0 '0'), s.drop 1)
  else some (digitVal (s.getD 0 '0') * 10 + digitVal (s.getD 1 '0'), s.drop 2)

/-- Go `time.cutspace`: leading spaces removed. -/
def cutspace : List Char → List Char
  | [] => []
  | c :: cs => if c = ' ' then cutspace cs else c :: cs

/-- The loop of `time.skip`. A space of the layout text stands for a run of spaces of
the value (it is refused only before a character that is not a space); `cut` records
that the spaces of the layout text are being dropped after such a match. Every other
character has to be matched exactly. -/
def skipFrom : Bool → List Char → List Char → Option (List Char)
  | _, value, [] => some value
  | cut, value, c :: p =>
    if c = ' ' then
      if cut then skipFrom true value p
      else
        match value with
        | v :: _ => if v ≠ ' ' then none else skipFrom true (cutspace value) p
        | [] => skipFrom true [] p
    else
      match value with
      | v :: vs => if v = c then skipFrom false vs p else none
      | [] => none

/-- Go `time.skip value text`: the value with the literal layout text removed from its
front, or `none` (`errBad`). -/
def skip (value text : List Char) : Option (List Char) := skipFrom false value text

/-- Go `time.match`: equality of two ASCII strings up to letter case. -/
def matchFold : List Char → List Char → Bool
  | [], _ => true
  | _ :: _, [] => false
  | c1 :: s1, c2 :: s2 =>
    (c1 = c2 ||
      ((c1.toNat ||| 32) = (c2.toNat ||| 32) &&
        decide (97 ≤ (c1.toNat ||| 32)) && decide ((c1.toNat ||| 32) ≤ 122))) &&
    matchFold s1 s2

/-- Go `time.shortMonthNames`. -/
def shortMonthNames : List String :=
  ["Jan", "Feb", "Mar", "Apr", "May", "Jun", "Jul", "Aug", "Sep", "Oct", "Nov", "Dec"]

/-- Go `time.lookup`: the index of the first table entry the value starts with (up to
letter case), and the rest of the value. -/
def lookup : List String → Nat → List Char → Option (Int × List Char)
  | [], _, _ => none
  | v :: tab, i, val =>
    if v.length ≤ val.length && matchFold (val.take v.length) v.data then
      some ((i : Int), val.drop v.length)
    else lookup tab (i + 1) val

/-- Go `time.leadingInt`: the number spelled by the leading digits and the rest, or `none`
when the number exceeds `1 << 63`. -/
def leadingInt : List Char → Nat → Option (Nat × List Char)
  | [], x => some (x, [])
  | c :: cs, x =>
    if c < '0' ∨ '9' < c then some (x, c :: cs)
    else if 2 ^ 63 / 10 < x then none
    else if 2 ^ 63 < x * 10 + (c.toNat - 48) then none
    else leadingInt cs (x * 10 + (c.toNat - 48))

/-- The `stdLongYear` case of `time.Parse`: exactly four digits. -/
def getYear (value : List Char) : Option (Int × List Char) :=
  if value.length < 4 || !isDigit value 0 then none
  else
    match leadingInt (value.take 4) 0 with
    | some (q, []) => some ((q : Int), value.drop 4)
    | _ => none

/-- Go `time.commaOrPeriod`. -/
def commaOrPeriod (c : Char) : Bool := c == '.' || c == ','

/-- The decimal number spelled by a list of digits. -/
def digitsVal (ds : List Char) : Int := ds.foldl (fun x c => x * 10 + digitVal c) 0

/-- The special case after the seconds field of `time.Parse`: a fractional second in
the value although the layout has none. All its digits are consumed; the first nine
give the nanoseconds (`parseNanoseconds`). -/
def fractional (value : List Char) : Int × List Char :=
  match value with
  | c :: rest =>
    if commaOrPeriod c && isDigit rest 0 then
      let ds := rest.takeWhile (fun d => decide ('0' ≤ d) && decide (d ≤ '9'))
      let used := ds.take 9
      (digitsVal used * 10 ^ (9 - used.length), rest.drop ds.length)
    else (0, value)
  | [] => (0, value)

/-- Go `time.parseSignedOffset`: the length of a leading `+hh` or `-hh` with `hh ≤ 23`,
or `0`. -/
def parseSignedOffset (value : List Char) : Nat :=
  match value with
  | [] => 0
  | sign :: rest =>
    if sign ≠ '-' ∧ sign ≠ '+' then 0
    else
      match leadingInt rest 0 with
      | none => 0
      | some (x, rem) =>
        if rest = rem then 0 else if 23 < x then 0 else value.length - rem.length

/-- Go `time.parseGMT`: the length of `GMT` with an optional signed hour offset. -/
def parseGMT (value : List Char) : Nat :=
  if (value.drop 3).length = 0 then 3 else 3 + parseSignedOffset (value.drop 3)

/-- The number of leading upper-case letters of the value, counted up to six. -/
def nUpper (value : List Char) : Nat :=
  ((value.take 6).takeWhile (fun c => decide ('A' ≤ c) && decide (c ≤ 'Z'))).length

/-- Go `time.parseTimeZone`: the length of the time zone abbreviation the value starts
with, or `none` when it does not start with one. -/
def parseTimeZone (value : List Char) : Option Nat :=
  if value.length < 3 then none
  else if 4 ≤ value.length && (value.take 4 = "ChST".data || value.take 4 = "MeST".data) then
    some 4
  else if value.take 3 = "GMT".data then some (parseGMT value)
  else if value.head? = some '+' || value.head? = some '-' then
    if 0 < parseSignedOffset value then some (parseSignedOffset value) else none
  else
    match nUpper value with
    | 5 => if value.get? 4 = some 'T' then some 5 else none
    | 4 => if value.get? 3 = some 'T' || value.take 4 = "WITA".data then some 4 else none
    | 3 => some 3
    | _ => none

/-- Go `time.isLeap`. -/
def isLeap (year : Int) : Bool := year % 4 == 0 && (year % 100 != 0 || year % 400 == 0)

/-- Go `time.daysBefore`: days of a non-leap year before the month with this index. -/
def daysBefore : List Int := [0, 31, 59, 90, 120, 151, 181, 212, 243, 273, 304, 334, 365]

/-- Go `time.daysIn`, for a month `1 ≤ m ≤ 12`. -/
def daysIn (m : Int) (year : Int) : Int :=
  if m == 2 && isLeap year then 29
  else daysBefore.getD m.toNat 0 - daysBefore.getD (m.toNat - 1) 0

/-- Go `time.Date(year, month, day, hour, min, sec, nsec, time.UTC)` for fields that are
in range: the instant of that civil time in the proleptic Gregorian calendar. -/
def Date (year month day hour min sec nsec : Int) : Time :=
  let y := year - 1
  let d := 365 * y + y / 4 - y / 100 + y / 400
    + daysBefore.getD (month.toNat - 1) 0
    + (if isLeap year && decide (3 ≤ month) then 1 else 0)
    + (day - 1)
  ⟨(d * 86400 + hour * 3600 + min * 60 + sec) * 1000000000 + nsec⟩

/-- Go `Time.unixSec`: whole seconds since 1970-01-01 UTC. -/
def Time.unixSec (t : Time) : Int := t.nanos / 1000000000 - unixToInternal

/-- The `stdTZ` case of `time.Parse`: `UTC`, or a time zone abbreviation. The result
is the abbreviation (`none` for `UTC`) and the rest of the value. -/
def getZone (value : List Char) : Option (Option String × List Char) :=
  if 3 ≤ value.length && value.take 3 = "UTC".data then some (none, value.drop 3)
  else
    match parseTimeZone value with
    | none => none
    | some n => some (some ⟨value.take n⟩, value.drop n)

/-- One round of the loop of `time.Parse` for the chunk `Wed, 2`: the literal text,
then the day of the month in one or two digits. -/
def parseDay (value : List Char) : Option (Int × List Char) :=
  (skip value "Wed, ".data).bind fun v => getnum v false

/-- The chunk ` Jan`: a space, then a month name; the result is the month, from 1. -/
def parseMonth (value : List Char) : Option (Int × List Char) :=
  (skip value " ".data).bind fun v =>
    (lookup shortMonthNames 0 v).map fun r => (r.1 + 1, r.2)

/-- The chunk ` 2006`: a space, then the year in four digits. -/
def parseYear (value : List Char) : Option (Int × List Char) :=
  (skip value " ".data).bind getYear

/-- The chunk ` 15`: a space, then the hour, below 24. -/
def parseHour (value : List Char) : Option (Int × List Char) :=
  (skip value " ".data).bind fun v =>
    (getnum v false).bind fun r => if 24 ≤ r.1 then none else some r

/-- The chunk `:04`: a colon, then the minute in two digits, below 60. -/
def parseMinute (value : List Char) : Option (Int × List Char) :=
  (skip value ":".data).bind fun v =>
    (getnum v true).bind fun r => if 60 ≤ r.1 then none else some r

/-- The chunk `:05`: a colon, then the second in two digits, below 60, and the
fractional second if the value has one. The result is the second, the nanoseconds
and the rest. -/
def parseSecond (value : List Char) : Option (Int × Int × List Char) :=
  (skip value ":".data).bind fun v =>
    (getnum v true).bind fun r =>
      if 60 ≤ r.1 then none else some (r.1, fractional r.2)

/-- The chunk ` MST`: a space, then the time zone, after which the value has to end
(anything left is the error `extra text`). -/
def parseZone (value : List Char) : Option (Option String) :=
  (skip value " ".data).bind fun v =>
    (getZone v).bind fun r => if r.2 ≠ [] then none else some r.1

/-- The end of `time.Parse`: the day has to exist in its month; the fields are read
as UTC, and moved by the offset of the abbreviation when the local time zone knows
it. -/
def resolve (lookupName : String → Int → Option Int)
    (year month day hour min sec nsec : Int) (zone : Option String) : Option Time :=
  if day < 1 ∨ daysIn month year < day then none
  else
    match zone with
    | none => some (Date year month day hour min sec nsec)
    | some zoneName =>
      match lookupName zoneName (Date year month day hour min sec nsec).unixSec with
      | some offset => some ⟨(Date year month day hour min sec nsec).nanos - offset * 1000000000⟩
      | none => some (Date year month day hour min sec nsec)

/-- Go `time.Parse("Wed, 2 Jan 2006 15:04:05 MST", value)`, after the implementation in the
Go standard library. In this layout `Wed, ` is literal text (the reference weekday of
a layout is `Mon`), followed by the day (`2`), the month name (`Jan`), the year
(`2006`), the hour (`15`), minute (`04`) and second (`05`), and a time zone
abbreviation (`MST`). `none` stands for a parse error, for which Go returns the zero
time. `lookupName zone unix` is `Local.lookupName`, the offset in seconds that the
local time zone of the process gives to the abbreviation, if it knows it; with an
unknown abbreviation the fields are read as UTC.

The value is read character by character. Go reads bytes; every element the parser
accepts is an ASCII character and a successful parse consumes the whole value, so the
two readings accept the same values and give the same instants. -/
def timeParse (lookupName : String → Int → Option Int) (value : String) : Option Time :=
  (parseDay value.data).bind fun d =>
  (parseMonth d.2).bind fun m =>
  (parseYear m.2).bind fun y =>
  (parseHour y.2).bind fun h =>
  (parseMinute h.2).bind fun n =>
  (parseSecond n.2).bind fun s =>
  (parseZone s.2.2).bind fun zone =>
  resolve lookupName y.1 m.1 d.1 h.1 n.1 s.1 s.2.1 zone

/-- A process whose local time zone is UTC: `Local.lookupName` knows no abbreviation
with an offset of its own. -/
def utcLocal : String → Int → Option Int := fun _ _ => none

/-! ## Responses, the cache store and the `Ambassador` -/

/-- An `io.ReadCloser` response body, a stream with a read position: the bytes that
have not been read yet, the error (other than `io.EOF`) that reading runs into, if
any, and the error `Close` returns, if any. -/
structure Body where
  unread : List UInt8
  readErr : Option String
  closeErr : Option String
  deriving DecidableEq, Repr

/-- Go `ioutil.ReadAll`: reads the stream to its end. The result is the bytes that were
still unread, or the error reading ran into, and the stream after the read, which has
nothing left to read. -/
def ReadAll (b : Body) : Except String (List UInt8) × Body :=
  match b.readErr with
  | some err => (.error err, { b with unread := [] })
  | none => (.ok b.unread, { b with unread := [] })

/-- Go `ioutil.NopCloser(bytes.NewReader(b))`: a fresh stream over `b` that cannot fail. -/
def NopCloser (b : List UInt8) : Body := ⟨b, none, none⟩

/-- The fields of `http.Response` the program touches; `Request` is the request that
was sent to obtain the response. -/
structure Response where
  StatusCode : Int
  Header : Header
  Body : Body
  ContentLength : Int
  Request : Request
  deriving DecidableEq, Repr

/-- The `cachedContent` struct; `data` is a `map[string][]byte`. -/
structure cachedContent where
  creation : Time
  expiry : Time
  data : List (String × List UInt8)
  deriving DecidableEq, Repr

/-- Go `cache.Item` of go-cache: the stored object and its expiration in Unix
nanoseconds, `0` for an item that never expires. -/
structure Item where
  Object : cachedContent
  Expiration : Int
  deriving DecidableEq, Repr

/-- One call of `Set` on the store: the key, the value and the duration passed. -/
structure SetCall where
  key : String
  value : cachedContent
  ttl : Duration
  deriving DecidableEq, Repr

/-- Go `cache.Cache` of go-cache: the default expiration and the item map (an association
list whose first binding of a key is the live one). `sets` is the history of the `Set`
calls, oldest first; it is kept to speak about the arguments of these calls and no
operation reads it. -/
structure Cache where
  defaultExpiration : Duration
  items : List (String × Item)
  sets : List SetCall
  deriving DecidableEq, Repr

/-- Go `cache.New(defaultExpiration, cleanupInterval)`. The janitor that runs every
`cleanupInterval` deletes items that `Get` already reports as absent, so it is not
part of the model. -/
def Cache.New (defaultExpiration _cleanupInterval : Duration) : Cache :=
  ⟨defaultExpiration, [], []⟩

/-- Go `(*cache).Set(k, x, d)` of go-cache, called when the clock reads `now`: a duration
of `0` stands for the default expiration, a positive duration gives the expiration
`now + d`, a negative one an item that never expires. -/
def Cache.Set (c : Cache) (now : Time) (k : String) (x : cachedContent) (d : Duration) :
    Cache :=
  let d1 := if d = 0 then c.defaultExpiration else d
  let e := if 0 < d1 then (now.Add d1).UnixNano else 0
  { c with
    items := (k, ⟨x, e⟩) :: c.items.filter (fun kv => kv.1 != k)
    sets := c.sets ++ [⟨k, x, d⟩] }

/-- Go `(*cache).Get(k)` of go-cache, called when the clock reads `now`: the object under
`k`, unless there is none or its expiration has passed. -/
def Cache.Get (c : Cache) (now : Time) (k : String) : Option cachedContent :=
  match c.items.lookup k with
  | none => none
  | some item =>
    if 0 < item.Expiration ∧ item.Expiration < now.UnixNano then none
    else some item.Object

/-- The `Ambassador` struct, without its logger. -/
structure Ambassador where
  listen : String
  experation : Int
  cleanup : Int
  cache : Cache
  cacheSize : Int
  deriving DecidableEq, Repr

/-- Function `NewAmbassador`: a cache with a default expiration of 5 minutes that purges expired
items every 10 minutes, listening on `0.0.0.0:80`. -/
def NewAmbassador : Ambassador :=
  { listen := "0.0.0.0:80"
    experation := 0
    cleanup := 0
    cache := Cache.New (5 * Minute) (10 * Minute)
    cacheSize := 0 }

/-- What one run of `cacheContent` reads from its environment: the three readings of
`time.Now()` (in `maxTime.Sub(time.Now())`, in `creation: time.Now()`, and inside
`cache.Set`), in this order, and the abbreviation lookup of the local time zone that
`time.Parse` uses. -/
structure Env where
  subNow : Time
  creationNow : Time
  setNow : Time
  lookupName : String → Int → Option Int

/-- Method `(*Ambassador).cacheContent`. The result is the ambassador, the response (both
are updated in place by the Go code) and the returned error, `none` for `nil`.
When reading or closing the body fails nothing else happens; the response is left
with the stream that has been read. -/
def cacheContent (a : Ambassador) (env : Env) (resp : Response) :
    Ambassador × Response × Option String :=
  match ReadAll resp.Body with
  | (.error err, body1) => (a, { resp with Body := body1 }, some err)
  | (.ok b, body1) =>
    match body1.closeErr with
    | some err => (a, { resp with Body := body1 }, some err)
    | none =>
      let maxTime := (timeParse env.lookupName (resp.Header.Get "max-age")).getD Time.zero
      let dur : Duration := if maxTime.IsZero then 5 * Minute else maxTime.Sub env.subNow
      let data := [("uncompressed", b)]
      let cc : cachedContent := { creation := env.creationNow, expiry := maxTime, data := data }
      let url := getURL resp.Request
      ({ a with cache := a.cache.Set env.setNow url cc dur },
       { resp with
         Body := NopCloser b
         ContentLength := (b.length : Int)
         Header := resp.Header.Set "Content-Length" (toString b.length) },
       none)

/-! ## Serving -/

/-- An `http.ResponseWriter`: the header map of the handler, the status code once the
header has been written, and the bytes written so far. -/
structure ResponseWriter where
  header : Header
  status : Option Int
  body : List UInt8
  deriving DecidableEq, Repr

/-- Go `ResponseWriter.WriteHeader`: the first status code written stays. -/
def ResponseWriter.WriteHeader (w : ResponseWriter) (code : Int) : ResponseWriter :=
  match w.status with
  | some _ => w
  | none => { w with status := some code }

/-- Go `ResponseWriter.Write`: writes the header with `200 OK` if it has not been written
yet, then the bytes. -/
def ResponseWriter.Write (w : ResponseWriter) (b : List UInt8) : ResponseWriter :=
  { w.WriteHeader 200 with body := (w.WriteHeader 200).body ++ b }

/-- A new `ResponseWriter`, as the server hands it to the handler. -/
def ResponseWriter.new : ResponseWriter := ⟨[], none, []⟩

/-- The request as `proxyRequest` has rewritten it when it calls `proxy.ServeHTTP`:
`req.URL.Host = host`, `req.URL.Scheme = "http"`,
`req.Header.Set("X-Forwarded-Host", req.Header.Get("Host"))`, `req.Host = host`,
for `host := req.Host`. -/
def outboundRequest (req : Request) : Request :=
  { req with
    URL := { req.URL with Host := req.Host, Scheme := "http" }
    Header := req.Header.Set "X-Forwarded-Host" (req.Header.Get "Host")
    Host := req.Host }

/-- The `http.Header` copy of the reverse proxy (`copyHeader`): every value of the source
is added under its key. -/
def copyHeader (dst src : Header) : Header :=
  src.foldl (fun d kv => (kv.1, (d.lookup kv.1).getD [] ++ kv.2) :: d.filter (fun e => e.1 != kv.1)) dst

/-- Go `(*httputil.ReverseProxy).ServeHTTP` with `ModifyResponse = a.cacheContent`, reduced
to what the program relies on: the request goes to the origin (`roundTrip`, `none`
for a transport error), the response passes through `cacheContent` with the request
as its `Request`, and its header, status and body (read from its stream) are copied
to the client; a transport error or an error of `cacheContent` is answered with
`502 Bad Gateway`.
The rewriting of the outbound URL by the director and the hop-by-hop and
`X-Forwarded-For` headers are not part of the model. -/
def ServeHTTP (a : Ambassador) (env : Env) (roundTrip : Request → Option Response)
    (res : ResponseWriter) (outreq : Request) : Ambassador × ResponseWriter :=
  match roundTrip outreq with
  | none => (a, res.WriteHeader 502)
  | some resp =>
    match cacheContent a env { resp with Request := outreq } with
    | (a1, _, some _) => (a1, res.WriteHeader 502)
    | (a1, resp1, none) =>
      match (ReadAll resp1.Body).1 with
      | .ok b =>
        (a1, ({ res with header := copyHeader res.header resp1.Header }.WriteHeader
                resp1.StatusCode).Write b)
      | .error _ =>
        (a1, { res with header := copyHeader res.header resp1.Header }.WriteHeader
                resp1.StatusCode)

/-- Method `(*Ambassador).proxyRequest`. -/
def proxyRequest (a : Ambassador) (env : Env) (roundTrip : Request → Option Response)
    (res : ResponseWriter) (req : Request) : Ambassador × ResponseWriter :=
  ServeHTTP a env roundTrip res (outboundRequest req)

/-- The outcome of `handleRequest`: the ambassador, what was written to the client,
and the requests handed to `proxyRequest` (none or one). -/
structure Handled where
  amb : Ambassador
  res : ResponseWriter
  forwarded : List Request
  deriving DecidableEq, Repr

/-- Method `(*Ambassador).handleRequest`, with `now` the reading of the clock inside
`cache.Get`. `content.data["uncompressed"]` of a missing key is the empty slice. -/
def handleRequest (a : Ambassador) (now : Time) (env : Env)
    (roundTrip : Request → Option Response) (res : ResponseWriter) (req : Request) : Handled :=
  match a.cache.Get now (getURL req) with
  | some content =>
    ⟨a, res.Write ((content.data.lookup "uncompressed").getD []), []⟩
  | none =>
    ⟨(proxyRequest a env roundTrip res req).1, (proxyRequest a env roundTrip res req).2, [req]⟩

/-! ## Handlers running concurrently

`net/http` runs every handler in a goroutine of its own. A handler touches the shared
state in two places, each atomic under the lock of the store: the `cache.Get` at the
start of `handleRequest` and, if that missed, the `cache.Set` at the end of the fetch
that `proxyRequest` performs. A handler is therefore run in two steps, and a schedule
says whose step comes next; every list of handler numbers is a schedule. -/

/-- Where a handler stands: before its lookup; inside `proxyRequest`, waiting for the
origin after a lookup that missed; finished after a hit; or finished after its fetch. -/
inductive Phase where
  | start
  | fetching
  | served
  | fetched
  deriving DecidableEq, Repr

/-- A handler: its request, its phase, and what it has written to its client. -/
structure Handler where
  req : Request
  phase : Phase
  res : ResponseWriter
  deriving DecidableEq, Repr

/-- The lookup of the handler has missed: it is inside `proxyRequest` or has left it. -/
def Handler.missed (h : Handler) : Bool :=
  h.phase == .fetching || h.phase == .fetched

/-- The shared state and the handlers; `forwarded` lists the requests with which
`proxyRequest` has been invoked, oldest first. -/
structure Sys where
  amb : Ambassador
  forwarded : List Request
  handlers : List Handler
  deriving DecidableEq, Repr

/-- One step of a handler. From `start`: the lookup of `handleRequest`; on a hit the
stored body is written and the handler has finished, on a miss (no entry, or an entry
whose expiration has passed) it invokes `proxyRequest`. From `fetching`: the rest of
`proxyRequest`, that is the answer of the origin, passed through `cacheContent` and
written to the client. A handler that has finished does nothing. -/
def stepHandler (now : Time) (env : Env) (roundTrip : Request → Option Response)
    (amb : Ambassador) (forwarded : List Request) (h : Handler) :
    Ambassador × List Request × Handler :=
  match h.phase with
  | .start =>
    match amb.cache.Get now (getURL h.req) with
    | some content =>
      (amb, forwarded,
        { h with
          phase := .served
          res := h.res.Write ((content.data.lookup "uncompressed").getD []) })
    | none => (amb, forwarded ++ [h.req], { h with phase := .fetching })
  | .fetching =>
    ((proxyRequest amb env roundTrip h.res h.req).1, forwarded,
      { h with phase := .fetched, res := (proxyRequest amb env roundTrip h.res h.req).2 })
  | .served => (amb, forwarded, h)
  | .fetched => (amb, forwarded, h)

/-- The step of handler number `i`; `clock i` and `env i` are what this handler reads
from its environment. -/
def step (clock : Nat → Time) (env : Nat → Env) (roundTrip : Request → Option Response)
    (s : Sys) (i : Nat) : Sys :=
  match s.handlers.get? i with
  | none => s
  | some h =>
    { amb := (stepHandler (clock i) (env i) roundTrip s.amb s.forwarded h).1
      forwarded := (stepHandler (clock i) (env i) roundTrip s.amb s.forwarded h).2.1
      handlers := s.handlers.set i (stepHandler (clock i) (env i) roundTrip s.amb s.forwarded h).2.2 }

/-- The run of a schedule. -/
def run (clock : Nat → Time) (env : Nat → Env) (roundTrip : Request → Option Response)
    (s : Sys) (schedule : List Nat) : Sys :=
  schedule.foldl (step clock env roundTrip) s

/-- The state in which the requests have arrived and no handler has run yet. -/
def arrived (a : Ambassador) (reqs : List Request) : Sys :=
  ⟨a, [], reqs.map fun r => ⟨r, .start, ResponseWriter.new⟩⟩

/-- What every run keeps true of the state, for the requests `reqs` that arrived at
the ambassador `a0`: the handlers keep their requests; the requests handed to
`proxyRequest` are those of the handlers whose lookup missed, each once; a handler
that has not finished has written nothing, and one that has finished its fetch has
written the answer to its own request. -/
def Coherent (a0 : Ambassador) (env : Nat → Env) (roundTrip : Request → Option Response)
    (reqs : List Request) (s : Sys) : Prop :=
  s.handlers.map Handler.req = reqs ∧
  s.forwarded.Perm ((s.handlers.filter Handler.missed).map Handler.req) ∧
  ∀ j h, s.handlers.get? j = some h →
    ((h.phase = .start ∨ h.phase = .fetching) → h.res = ResponseWriter.new) ∧
    (h.phase = .fetched →
      h.res = (proxyRequest a0 (env j) roundTrip ResponseWriter.new h.req).2)

/-! ## Sample requests, responses and environments -/

/-- The request `GET /a` to the host `svc`. -/
def reqA : Request := ⟨"GET", ⟨"", "", "/a"⟩, [], "svc", "/a"⟩

/-- The request `HEAD /a` to the host `svc`, with a header of its own. -/
def reqA2 : Request := ⟨"HEAD", ⟨"", "", "/a"⟩, [("Accept", ["*/*"])], "svc", "/a"⟩

/-- The request `GET /` with the host spelled `Example.com`. -/
def reqUpper : Request := ⟨"GET", ⟨"", "", "/"⟩, [], "Example.com", "/"⟩

/-- The request `GET /` with the host spelled `example.com`. -/
def reqLower : Request := ⟨"GET", ⟨"", "", "/"⟩, [], "example.com", "/"⟩

/-- An inbound request as the Go server hands it to the handler: the `Host` header has
been moved to the `Host` field and is not in the header map. -/
def reqInbound : Request :=
  ⟨"GET", ⟨"", "", "/"⟩, [("Accept", ["*/*"])], "example.com", "/"⟩

/-- The clock of a process on 2020-02-12 at 15:26:40 UTC, its local time zone UTC. -/
def envFeb : Env :=
  ⟨⟨63717118000000000000⟩, ⟨63717118000000000001⟩, ⟨63717118000000000002⟩, utcLocal⟩

/-- An origin response with a header `max-age: 60`. -/
def respSeconds : Response :=
  ⟨200, [("Max-Age", ["60"])], ⟨[104, 105], none, none⟩, -1, reqA⟩

/-- An origin response with `Cache-Control: max-age=60`. -/
def respDirective : Response :=
  ⟨200, [("Cache-Control", ["max-age=60"])], ⟨[104, 105], none, none⟩, -1, reqA⟩

/-- An origin response without any freshness header. -/
def respPlain : Response :=
  ⟨200, [("Content-Type", ["text/plain"])], ⟨[104, 105], none, none⟩, -1, reqA⟩

/-- An origin response whose `max-age` header is a date before the clock of `envFeb`. -/
def respPast : Response :=
  ⟨200, [("Max-Age", ["Wed, 12 Feb 2020 15:00:00 GMT"])], ⟨[104, 105], none, none⟩, -1, reqA⟩

/-- An origin response whose `max-age` header is a date after the clock of `envFeb`. -/
def respFuture : Response :=
  ⟨200, [("Max-Age", ["Wed, 12 Feb 2020 15:30:00 GMT"])], ⟨[104, 105], none, none⟩, -1, reqA⟩

/-- The request `POST /a` to the host `svc`. -/
def reqPost : Request := ⟨"POST", ⟨"", "", "/a"⟩, [], "svc", "/a"⟩

/-- An origin response to a `POST` with status 500 and `Cache-Control: no-store`. -/
def respNoStore : Response :=
  ⟨500, [("Cache-Control", ["no-store"])], ⟨[104, 105], none, none⟩, -1, reqPost⟩

/-- An origin response whose body cannot be read to its end. -/
def respBroken : Response :=
  ⟨200, [], ⟨[104], some "unexpected EOF", none⟩, -1, reqA⟩

/-- An origin response with status 404 and a header of its own. -/
def respNotFound : Response :=
  ⟨404, [("X-A", ["1"])], ⟨[104, 105], none, none⟩, -1, reqA⟩

/-- An origin that cannot be reached. -/
def originDown : Request → Option Response := fun _ => none

/-- A cache that holds an entry for `http://svc/a`, stored at 15:26:40 with the default
lifetime of five minutes. -/
def ambStale : Ambassador := (cacheContent NewAmbassador envFeb respPlain).1

/-- A clock that reads 15:36:40 for every handler, when that entry has expired. -/
def clockLate : Nat → Time := fun _ => ⟨63717118600000000002⟩

/-- An origin that answers every request with a plain `200` response. -/
def originPlain : Request → Option Response := fun _ => some respPlain

/-! ## Key derivation -/

/-- The characters of a key: those of `http://`, of the host and of the request URI. -/
theorem getURL_data (r : Request) :
    (getURL r).data = "http://".data ++ (r.Host.data ++ r.RequestURI.data) := by
  simp [getURL, String.data_append]

/-- A list is split in one way only into a part without `/` and a part starting with
`/`. -/
theorem split_at_slash :
    ∀ (a1 a2 b1 b2 : List Char), '/' ∉ a1 → '/' ∉ a2 →
      b1.head? = some '/' → b2.head? = some '/' → a1 ++ b1 = a2 ++ b2 →
      a1 = a2 ∧ b1 = b2
  | [], [], _, _, _, _, _, _, h => ⟨rfl, by simpa using h⟩
  | [], c :: a2, b1, b2, _, h2, u1, _, h => by
    cases b1 with
    | nil => simp at u1
    | cons d b1 =>
      simp at u1 h
      exact absurd (h.1 ▸ u1 ▸ List.mem_cons_self _ _) h2
  | c :: a1, [], b1, b2, h1, _, _, u2, h => by
    cases b2 with
    | nil => simp at u2
    | cons d b2 =>
      simp at u2 h
      exact absurd (h.1 ▸ u2 ▸ List.mem_cons_self _ _) h1
  | c :: a1, d :: a2, b1, b2, h1, h2, u1, u2, h => by
    simp only [List.cons_append, List.cons.injEq] at h
    have ih := split_at_slash a1 a2 b1 b2 (fun m => h1 (List.mem_cons_of_mem _ m))
      (fun m => h2 (List.mem_cons_of_mem _ m)) u1 u2 h.2
    exact ⟨by rw [h.1, ih.1], ih.2⟩

/-- C7: `getURL` is injective on well-formed requests. For all requests whose `Host`
contains no `/` and whose `RequestURI` begins with `/`, equal keys imply equal hosts
and equal request URIs. -/
theorem getURL_injective (r1 r2 : Request)
    (h1 : '/' ∉ r1.Host.data) (h2 : '/' ∉ r2.Host.data)
    (u1 : r1.RequestURI.data.head? = some '/') (u2 : r2.RequestURI.data.head? = some '/')
    (h : getURL r1 = getURL r2) :
    r1.Host = r2.Host ∧ r1.RequestURI = r2.RequestURI := by
  have hd := congrArg String.data h
  rw [getURL_data, getURL_data] at hd
  have := split_at_slash _ _ _ _ h1 h2 u1 u2 (List.append_cancel_left hd)
  exact ⟨String.ext this.1, String.ext this.2⟩

/-- C7 at a concrete input: two well-formed requests that differ in method and header
have the same key, and they agree on host and request URI. -/
theorem getURL_injective_witness :
    getURL reqA = getURL reqA2 ∧ (reqA.Host = reqA2.Host ∧ reqA.RequestURI = reqA2.RequestURI) :=
  ⟨by decide,
    getURL_injective reqA reqA2 (by decide) (by decide) (by decide) (by decide) (by decide)⟩

/-- C8 fails as stated: two requests with the same `RequestURI` whose hosts differ
only in letter case get different keys, and the key of the first keeps the upper-case
letter of its host. -/
theorem getURL_host_case_counterexample :
    reqUpper.RequestURI = reqLower.RequestURI ∧
    reqUpper.Host.data.map Char.toLower = reqLower.Host.data.map Char.toLower ∧
    getURL reqUpper ≠ getURL reqLower ∧
    getURL reqUpper = "http://Example.com/" := by
  refine ⟨by decide, by decide, by decide, by decide⟩

/-- C8 as amended: `getURL` takes the host as it was received. Two requests with the
same `RequestURI` get the same key exactly when their `Host` values are equal, letter
case included. -/
theorem getURL_host_verbatim (r1 r2 : Request) (hu : r1.RequestURI = r2.RequestURI) :
    getURL r1 = getURL r2 ↔ r1.Host = r2.Host := by
  constructor
  · intro h
    have hd := congrArg String.data h
    rw [getURL_data, getURL_data, hu] at hd
    exact String.ext (List.append_cancel_right (List.append_cancel_left hd))
  · intro h
    simp [getURL, h, hu]

/-- C8 as amended, at the two spellings of `example.com`: the keys differ because the
hosts do. -/
theorem getURL_host_verbatim_witness :
    reqUpper.RequestURI = reqLower.RequestURI ∧
    (getURL reqUpper = getURL reqLower ↔ reqUpper.Host = reqLower.Host) :=
  ⟨by decide, getURL_host_verbatim reqUpper reqLower (by decide)⟩

/-! ## Forwarding -/

/-- C9 at the failing input: for an inbound request to `example.com` the outbound
request carries an empty `X-Forwarded-Host`, the value of a `Host` entry that the
header map does not have, and not the inbound host. -/
theorem xForwardedHost_failing_input :
    reqInbound.Host = "example.com" ∧
    (outboundRequest reqInbound).Header.Get "X-Forwarded-Host" = "" ∧
    (outboundRequest reqInbound).Header.Get "X-Forwarded-Host" ≠ reqInbound.Host := by
  refine ⟨by decide, by decide, by decide⟩

/-- For every inbound request the `X-Forwarded-Host` of the outbound request is the
value the header map holds under `Host`. -/
theorem xForwardedHost_eq_header (req : Request) :
    (outboundRequest req).Header.Get "X-Forwarded-Host" = req.Header.Get "Host" := by
  simp [outboundRequest, Header.Get, Header.Set, List.lookup]

/-! ## Freshness -/

/-- A value that does not start with `W` is not a date of the layout. -/
theorem timeParse_none_of_head (lk : String → Int → Option Int) (s : String)
    (h : s.data.head? ≠ some 'W') : timeParse lk s = none := by
  have hs : skip s.data "Wed, ".data = none := by
    cases hd : s.data with
    | nil => rfl
    | cons c cs =>
      rw [hd] at h
      have hc : c ≠ 'W' := fun e => h (by simp [e])
      have hW : ('W' : Char) ≠ ' ' := by decide
      show skipFrom false (c :: cs) ('W' :: "ed, ".data) = none
      simp [skipFrom, hW, hc]
  simp [timeParse, parseDay, hs]

/-- Every decimal digit character is a digit. -/
theorem digitChar_isDigit (d : Nat) (h : d < 10) : (Nat.digitChar d).isDigit = true := by
  interval_cases d <;> decide

/-- The characters that `Nat.toDigitsCore` produces in base ten are digits. -/
theorem toDigitsCore_isDigit :
    ∀ (fuel n : Nat) (ds : List Char), (∀ c ∈ ds, c.isDigit = true) →
      ∀ c ∈ Nat.toDigitsCore 10 fuel n ds, c.isDigit = true
  | 0, _, ds, h => by simpa [Nat.toDigitsCore] using h
  | fuel + 1, n, ds, h => by
    have hd : ∀ c ∈ Nat.digitChar (n % 10) :: ds, c.isDigit = true := by
      intro c hc
      rcases List.mem_cons.1 hc with e | m
      · exact e ▸ digitChar_isDigit _ (Nat.mod_lt _ (by decide))
      · exact h c m
    unfold Nat.toDigitsCore
    by_cases hz : n / 10 = 0
    · simpa [hz] using hd
    · simpa [hz] using toDigitsCore_isDigit fuel (n / 10) _ hd

/-- The decimal rendering of a number, `strconv.Itoa`, consists of digits. -/
theorem toString_isDigit (n : Nat) : ∀ c ∈ (toString n).data, c.isDigit = true := by
  show ∀ c ∈ (Nat.repr n).data, c.isDigit = true
  simpa [Nat.repr, Nat.toDigits, List.asString] using
    toDigitsCore_isDigit (n + 1) n [] (by simp)

/-- A number of seconds in decimal is not a date of the layout. -/
theorem timeParse_toString (lk : String → Int → Option Int) (n : Nat) :
    timeParse lk (toString n) = none := by
  apply timeParse_none_of_head
  intro h
  have hm : 'W' ∈ (toString n).data := by
    cases hd : (toString n).data with
    | nil => simp [hd] at h
    | cons c cs =>
      rw [hd] at h
      simp at h
      simp [h]
  exact absurd (toString_isDigit n 'W' hm) (by decide)

/-- The value `Header.Get` gives for an absent key is empty. -/
theorem Header.Get_absent (h : Header) (key : String)
    (ha : h.lookup (CanonicalMIMEHeaderKey key) = none) : h.Get key = "" := by
  simp [Header.Get, ha]

/-- What `cacheContent` does when the body is read and closed without error: one `Set`
under the key of the request, with the parsed date as `expiry`, and the default of
five minutes as duration unless the date is not the zero time. -/
theorem cacheContent_ok (a : Ambassador) (env : Env) (resp : Response)
    (hr : resp.Body.readErr = none) (hc : resp.Body.closeErr = none) :
    cacheContent a env resp =
      ({ a with cache := (a.cache.Set env.setNow (getURL resp.Request)
            ⟨env.creationNow,
              (timeParse env.lookupName (resp.Header.Get "max-age")).getD Time.zero,
              [("uncompressed", resp.Body.unread)]⟩
            (if ((timeParse env.lookupName (resp.Header.Get "max-age")).getD Time.zero).IsZero
              then 5 * Minute
              else ((timeParse env.lookupName (resp.Header.Get "max-age")).getD
                Time.zero).Sub env.subNow)) },
       { resp with
         Body := NopCloser resp.Body.unread
         ContentLength := (resp.Body.unread.length : Int)
         Header := resp.Header.Set "Content-Length" (toString resp.Body.unread.length) },
       none) := by
  simp [cacheContent, ReadAll, hr, hc]

/-- What `cacheContent` does when reading or closing the body fails: it returns the
error and leaves the ambassador as it is. -/
theorem cacheContent_err (a : Ambassador) (env : Env) (resp : Response)
    (h : resp.Body.readErr ≠ none ∨ resp.Body.closeErr ≠ none) :
    (cacheContent a env resp).1 = a ∧ (cacheContent a env resp).2.2 ≠ none := by
  cases hr : resp.Body.readErr with
  | some e => simp [cacheContent, ReadAll, hr]
  | none =>
    cases hc : resp.Body.closeErr with
    | some e => simp [cacheContent, ReadAll, hr, hc]
    | none => simp [hr, hc] at h

/-- The history of `Set` calls after a `Set`. -/
theorem Cache.Set_sets (c : Cache) (now : Time) (k : String) (x : cachedContent)
    (d : Duration) : (c.Set now k x d).sets = c.sets ++ [⟨k, x, d⟩] := rfl

/-- C1 fails as stated: for a response with `max-age: 60` and for one with
`Cache-Control: max-age=60`, neither with `Expires`, the duration passed to `Set` is
300 seconds and not 60. -/
theorem maxAge_seconds_counterexample :
    ((cacheContent NewAmbassador envFeb respSeconds).1.cache.sets.map SetCall.ttl
      = [300 * Second]) ∧
    ((cacheContent NewAmbassador envFeb respDirective).1.cache.sets.map SetCall.ttl
      = [300 * Second]) ∧
    300 * Second ≠ 60 * Second := by
  refine ⟨by decide, by decide, by decide⟩

/-- C1 as amended: for every origin response that carries `max-age=N` as a number of
seconds, in a `max-age` header or in a directive that leaves no `max-age` header, the
duration that `cacheContent` passes to `Set` is the default of 5 minutes, whatever
`N` is. -/
theorem maxAge_seconds_default (a : Ambassador) (env : Env) (resp : Response) (N : Nat)
    (hr : resp.Body.readErr = none) (hc : resp.Body.closeErr = none)
    (hv : resp.Header.Get "max-age" = toString N ∨
      resp.Header.lookup (CanonicalMIMEHeaderKey "max-age") = none) :
    ∃ cc, (cacheContent a env resp).1.cache.sets =
      a.cache.sets ++ [⟨getURL resp.Request, cc, 5 * Minute⟩] := by
  have hp : timeParse env.lookupName (resp.Header.Get "max-age") = none := by
    rcases hv with hv | hv
    · rw [hv]; exact timeParse_toString _ _
    · rw [Header.Get_absent _ _ hv]; exact timeParse_none_of_head _ _ (by decide)
  rw [cacheContent_ok a env resp hr hc]
  simp [hp, Cache.Set_sets, Time.IsZero, Time.zero]

/-- C1 as amended, at `max-age: 60`: the duration passed to `Set` is 5 minutes. -/
theorem maxAge_seconds_default_witness :
    ∃ cc, (cacheContent NewAmbassador envFeb respSeconds).1.cache.sets =
      NewAmbassador.cache.sets ++ [⟨getURL respSeconds.Request, cc, 5 * Minute⟩] :=
  maxAge_seconds_default NewAmbassador envFeb respSeconds 60 (by decide) (by decide)
    (Or.inl (by decide))

/-- C5: for every origin response whose `max-age` header is absent or does not parse
to a non-zero time, the duration that `cacheContent` passes to `Set` is the default
of exactly 5 minutes, which is also the default expiration of the store. -/
theorem no_freshness_default (a : Ambassador) (env : Env) (resp : Response)
    (hr : resp.Body.readErr = none) (hc : resp.Body.closeErr = none)
    (hv : resp.Header.lookup (CanonicalMIMEHeaderKey "max-age") = none ∨
      ((timeParse env.lookupName (resp.Header.Get "max-age")).getD Time.zero).IsZero = true) :
    (∃ cc, (cacheContent a env resp).1.cache.sets =
      a.cache.sets ++ [⟨getURL resp.Request, cc, 5 * Minute⟩]) ∧
    5 * Minute = 300 * Second ∧ NewAmbassador.cache.defaultExpiration = 5 * Minute := by
  have hz : ((timeParse env.lookupName (resp.Header.Get "max-age")).getD Time.zero).IsZero
      = true := by
    rcases hv with hv | hv
    · rw [Header.Get_absent _ _ hv, timeParse_none_of_head _ _ (by decide)]; rfl
    · exact hv
  refine ⟨?_, by decide, by decide⟩
  rw [cacheContent_ok a env resp hr hc]
  simp [hz, Cache.Set_sets]

/-- C5 at a response without freshness header: the duration is 5 minutes. -/
theorem no_freshness_default_witness :
    (∃ cc, (cacheContent NewAmbassador envFeb respPlain).1.cache.sets =
      NewAmbassador.cache.sets ++ [⟨getURL respPlain.Request, cc, 5 * Minute⟩]) ∧
    5 * Minute = 300 * Second ∧ NewAmbassador.cache.defaultExpiration = 5 * Minute :=
  no_freshness_default NewAmbassador envFeb respPlain (by decide) (by decide)
    (Or.inl (by decide))

/-- C3 fails as stated: a response without freshness header is stored with an `expiry`
(the zero time) that is not after its `creation`, and a response whose date lies
before the current time is stored with a negative duration, for which the store keeps
it without expiration. -/
theorem stored_entry_counterexample :
    ((cacheContent NewAmbassador envFeb respPlain).1.cache.sets.map
        (fun s => (s.value.creation.nanos, s.value.expiry.nanos))
      = [(63717118000000000001, 0)]) ∧
    ((cacheContent NewAmbassador envFeb respPast).1.cache.sets.map SetCall.ttl
      = [-1600 * Second]) ∧
    ((cacheContent NewAmbassador envFeb respPast).1.cache.items.map
        (fun kv => (kv.1, kv.2.Expiration))
      = [("http://svc/a", 0)]) := by
  refine ⟨by decide, by decide, by decide⟩

/-- Cutting a positive number off at a negative lower and a positive upper bound
leaves it positive. -/
theorem clamp_pos (d lo hi : Int) (hlo : lo < 0) (hhi : 0 < hi) (hd : 0 < d) :
    0 < (if d < lo then lo else if hi < d then hi else d) := by
  split_ifs <;> omega

/-- A date after the current time gives a positive duration. -/
theorem Time.Sub_pos (t u : Time) (h : u.nanos < t.nanos) : 0 < t.Sub u :=
  clamp_pos (t.nanos - u.nanos) minDuration maxDuration (by decide) (by decide)
    (Int.sub_pos.2 h)

/-- Cutting a number that is not positive off at a negative lower and a positive upper
bound leaves it not positive. -/
theorem clamp_nonpos (d lo hi : Int) (hlo : lo < 0) (hhi : 0 < hi) (hd : d ≤ 0) :
    (if d < lo then lo else if hi < d then hi else d) ≤ 0 := by
  split_ifs <;> omega

/-- A date at or before the current time gives a duration that is not positive. -/
theorem Time.Sub_nonpos (t u : Time) (h : t.nanos ≤ u.nanos) : t.Sub u ≤ 0 :=
  clamp_nonpos (t.nanos - u.nanos) minDuration maxDuration (by decide) (by decide)
    (by omega)

/-- C3 as amended: `cacheContent` stores every response whose body it reads and closes
without error, with no check of the lifetime. The stored `cachedContent` has the
reading of the clock as `creation` and the date parsed from the `max-age` header as
`expiry`, the zero time if there is none. The duration passed to `Set` is strictly
positive except exactly when that header parses to a date other than the zero time
that is at or before the current time; in particular it is positive for every response
without a usable date. When the clock does not run backwards, an entry whose `expiry`
is strictly after its `creation` has a positive duration. -/
theorem stored_entry_lifetime (a : Ambassador) (env : Env) (resp : Response)
    (hr : resp.Body.readErr = none) (hc : resp.Body.closeErr = none) :
    ∃ cc ttl, (cacheContent a env resp).1.cache.sets =
        a.cache.sets ++ [⟨getURL resp.Request, cc, ttl⟩] ∧
      cc.creation = env.creationNow ∧
      cc.expiry = (timeParse env.lookupName (resp.Header.Get "max-age")).getD Time.zero ∧
      (0 < ttl ↔ (cc.expiry.IsZero = true ∨ env.subNow.nanos < cc.expiry.nanos)) ∧
      (env.subNow.nanos ≤ env.creationNow.nanos →
        cc.creation.nanos < cc.expiry.nanos → 0 < ttl) := by
  rw [cacheContent_ok a env resp hr hc]
  have key : ∀ T : Time, (0 < (if T.IsZero = true then 5 * Minute else T.Sub env.subNow) ↔
      (T.IsZero = true ∨ env.subNow.nanos < T.nanos)) := by
    intro T
    cases hz : T.IsZero with
    | true =>
      simp only [if_true, true_or, iff_true]
      decide
    | false =>
      have hf : ¬ (false = true) := by decide
      rw [if_neg hf]
      constructor
      · intro hpos
        refine Or.inr (lt_of_not_ge fun hle => ?_)
        exact absurd hpos (not_lt.2 (Time.Sub_nonpos T env.subNow hle))
      · intro h
        rcases h with h | h
        · exact absurd h hf
        · exact Time.Sub_pos _ _ h
  refine ⟨_, _, Cache.Set_sets _ _ _ _ _, rfl, rfl, key _, ?_⟩
  intro hmono hlt
  exact (key _).2 (Or.inr (lt_of_le_of_lt hmono hlt))

/-- C3 as amended, at a response dated 15:30:00 received at 15:26:40 (the entry expires
after its creation and the duration is positive). -/
theorem stored_entry_lifetime_witness :
    ∃ cc ttl, (cacheContent NewAmbassador envFeb respFuture).1.cache.sets =
        NewAmbassador.cache.sets ++ [⟨getURL respFuture.Request, cc, ttl⟩] ∧
      cc.expiry = ⟨63717118200000000000⟩ ∧ cc.creation.nanos < cc.expiry.nanos ∧ 0 < ttl := by
  obtain ⟨cc, ttl, hs, hcr, hex, hiff, _⟩ :=
    stored_entry_lifetime NewAmbassador envFeb respFuture (by decide) (by decide)
  have hT : (timeParse envFeb.lookupName (respFuture.Header.Get "max-age")).getD Time.zero
      = ⟨63717118200000000000⟩ := by decide
  rw [hT] at hex
  refine ⟨cc, ttl, hs, hex, ?_, hiff.2 (Or.inr ?_)⟩
  · rw [hcr, hex]; decide
  · rw [hex]; decide

/-- The weekday of the layout is literal text: a date that falls on a Thursday and
says so is not a date of the layout. -/
theorem timeParse_weekday_literal :
    timeParse utcLocal "Thu, 13 Feb 2020 15:30:00 GMT" = none ∧
    timeParse utcLocal "Wed, 13 Feb 2020 15:30:00 GMT" = some ⟨63717204600000000000⟩ := by
  refine ⟨by decide, by decide⟩

/-! ## Storing -/

/-- C2 fails as stated: a response with status 500 to a `POST`, carrying `no-store`,
is written into the store, and a `Get` of its key a moment later finds it. -/
theorem cacheable_only_counterexample :
    respNoStore.StatusCode = 500 ∧ respNoStore.Request.Method = "POST" ∧
    respNoStore.Header.Get "Cache-Control" = "no-store" ∧
    ((cacheContent NewAmbassador envFeb respNoStore).1.cache.sets.map SetCall.key
      = ["http://svc/a"]) ∧
    (((cacheContent NewAmbassador envFeb respNoStore).1.cache.Get
      ⟨63717118000000000003⟩ "http://svc/a").map cachedContent.data
      = some [("uncompressed", [104, 105])]) ∧
    NewAmbassador.cache.Get ⟨63717118000000000003⟩ "http://svc/a" = none := by
  refine ⟨by decide, by decide, by decide, by decide, by decide, by decide⟩

/-- C2 as amended: `cacheContent` writes every response whose body is read and closed
without error into the store, under the key of its request, whatever the status, the
method and the directives are; when reading or closing the body fails, no `Set` is
performed and the cache is left unchanged. -/
theorem stores_every_readable_response (a : Ambassador) (env : Env) (resp : Response) :
    (resp.Body.readErr = none → resp.Body.closeErr = none →
      ∃ cc ttl, (cacheContent a env resp).1.cache.sets =
        a.cache.sets ++ [⟨getURL resp.Request, cc, ttl⟩]) ∧
    (resp.Body.readErr ≠ none ∨ resp.Body.closeErr ≠ none →
      (cacheContent a env resp).1 = a) := by
  constructor
  · intro hr hc
    rw [cacheContent_ok a env resp hr hc]
    exact ⟨_, _, Cache.Set_sets _ _ _ _ _⟩
  · intro h
    exact (cacheContent_err a env resp h).1

/-- C2 as amended, at the `no-store` response (stored) and at a response whose body
breaks off (not stored). -/
theorem stores_every_readable_response_witness :
    (∃ cc ttl, (cacheContent NewAmbassador envFeb respNoStore).1.cache.sets =
        NewAmbassador.cache.sets ++ [⟨getURL respNoStore.Request, cc, ttl⟩]) ∧
    (cacheContent NewAmbassador envFeb respBroken).1 = NewAmbassador :=
  ⟨(stores_every_readable_response NewAmbassador envFeb respNoStore).1 (by decide) (by decide),
    (stores_every_readable_response NewAmbassador envFeb respBroken).2 (Or.inl (by decide))⟩

/-- Dropping the bindings of one key leaves the lookup of every other key as it is. -/
theorem lookup_filter_ne {β : Type} (k k0 : String) (hk : k ≠ k0) :
    ∀ h : List (String × β), (h.filter (fun kv => kv.1 != k0)).lookup k = h.lookup k
  | [] => rfl
  | (k1, v) :: h => by
    by_cases h1 : k1 = k0
    · subst h1
      have hne : (k == k1) = false := by simpa using hk
      simp [List.filter, List.lookup, hne, lookup_filter_ne k k1 hk h]
    · have hne : (k1 != k0) = true := by simpa using h1
      simp only [List.filter, hne, List.lookup]
      rw [lookup_filter_ne k k0 hk h]

/-- The binding a `Set` of the store makes is the one a lookup of its key finds. -/
theorem Cache.Set_lookup (c : Cache) (now : Time) (k : String) (x : cachedContent)
    (d : Duration) : ∃ e, (c.Set now k x d).items.lookup k = some ⟨x, e⟩ := by
  simp [Cache.Set, List.lookup]

/-- A stream that has been read to its end yields nothing when it is read again. -/
theorem ReadAll_consumes (body : Body) (hr : body.readErr = none) :
    (ReadAll body).1 = .ok body.unread ∧ (ReadAll (ReadAll body).2).1 = .ok [] := by
  simp [ReadAll, hr]

/-- C6: after `cacheContent` succeeds on a response whose body stream yields the bytes
`b`, (a) the `ContentLength` of the response is `len(b)` and its `Content-Length`
header is the decimal rendering of `len(b)`, (b) the bytes stored in the cache entry
are `b`, (c) the body handed on is a fresh stream over `b`, which reads back `b`
although the stream of the origin has been read to its end; every other header, the
status and the request are unchanged. It succeeds whenever the body is read and
closed without error. -/
theorem cacheContent_buffers_body (a : Ambassador) (env : Env) (resp : Response)
    (hr : resp.Body.readErr = none) (hc : resp.Body.closeErr = none) :
    (cacheContent a env resp).2.2 = none ∧
    (cacheContent a env resp).2.1.ContentLength = (resp.Body.unread.length : Int) ∧
    (cacheContent a env resp).2.1.Header.lookup "Content-Length"
      = some [toString resp.Body.unread.length] ∧
    (cacheContent a env resp).2.1.Header.Get "Content-Length"
      = toString resp.Body.unread.length ∧
    (∃ item, (cacheContent a env resp).1.cache.items.lookup (getURL resp.Request) = some item ∧
      item.Object.data.lookup "uncompressed" = some resp.Body.unread) ∧
    (∃ cc ttl, (cacheContent a env resp).1.cache.sets =
        a.cache.sets ++ [⟨getURL resp.Request, cc, ttl⟩] ∧
      cc.data = [("uncompressed", resp.Body.unread)]) ∧
    (ReadAll (ReadAll resp.Body).2).1 = .ok [] ∧
    (cacheContent a env resp).2.1.Body = NopCloser resp.Body.unread ∧
    (ReadAll (cacheContent a env resp).2.1.Body).1 = .ok resp.Body.unread ∧
    (∀ k, k ≠ "Content-Length" →
      (cacheContent a env resp).2.1.Header.lookup k = resp.Header.lookup k) ∧
    (cacheContent a env resp).2.1.StatusCode = resp.StatusCode ∧
    (cacheContent a env resp).2.1.Request = resp.Request := by
  have hk : CanonicalMIMEHeaderKey "Content-Length" = "Content-Length" := by decide
  rw [cacheContent_ok a env resp hr hc]
  refine ⟨rfl, rfl, ?_, ?_, ?_, ⟨_, _, Cache.Set_sets _ _ _ _ _, rfl⟩,
    (ReadAll_consumes _ hr).2, rfl, rfl, ?_, rfl, rfl⟩
  · simp [Header.Set, hk, List.lookup]
  · simp [Header.Get, Header.Set, hk, List.lookup]
  · obtain ⟨e, he⟩ := Cache.Set_lookup a.cache env.setNow (getURL resp.Request)
      ⟨env.creationNow,
        (timeParse env.lookupName (resp.Header.Get "max-age")).getD Time.zero,
        [("uncompressed", resp.Body.unread)]⟩
      (if ((timeParse env.lookupName (resp.Header.Get "max-age")).getD Time.zero).IsZero
        then 5 * Minute
        else ((timeParse env.lookupName (resp.Header.Get "max-age")).getD
          Time.zero).Sub env.subNow)
    exact ⟨_, he, by simp [List.lookup]⟩
  · intro k hne
    have hb : (k == "Content-Length") = false := by simpa using hne
    simp only [Header.Set, hk, List.lookup, hb]
    exact lookup_filter_ne k _ hne _

/-- C6 at a plain response with a body of two bytes: the length is 2, the header
reads `2`, the stream of the origin is used up, and the body handed on reads back
the two bytes. -/
theorem cacheContent_buffers_body_witness :
    respPlain.Body.readErr = none ∧ respPlain.Body.closeErr = none ∧
    (cacheContent NewAmbassador envFeb respPlain).2.1.ContentLength
      = (respPlain.Body.unread.length : Int) ∧
    (cacheContent NewAmbassador envFeb respPlain).2.1.Header.Get "Content-Length"
      = toString respPlain.Body.unread.length ∧
    (ReadAll (ReadAll respPlain.Body).2).1 = .ok [] ∧
    (ReadAll (cacheContent NewAmbassador envFeb respPlain).2.1.Body).1
      = .ok respPlain.Body.unread :=
  ⟨by decide, by decide,
    (cacheContent_buffers_body NewAmbassador envFeb respPlain (by decide) (by decide)).2.1,
    (cacheContent_buffers_body NewAmbassador envFeb respPlain (by decide) (by decide)).2.2.2.1,
    (cacheContent_buffers_body NewAmbassador envFeb respPlain (by decide)
      (by decide)).2.2.2.2.2.2.1,
    (cacheContent_buffers_body NewAmbassador envFeb respPlain (by decide)
      (by decide)).2.2.2.2.2.2.2.2.1⟩

/-! ## Serving from the cache -/

/-- C4 fails as stated: an entry captured from an origin response with status 404 and
the header `X-A: 1` is served on a hit with status 200 and without that header; only
the body is the stored one. -/
theorem hit_verbatim_counterexample :
    respNotFound.StatusCode = 404 ∧ respNotFound.Header.lookup "X-A" = some ["1"] ∧
    (handleRequest (cacheContent NewAmbassador envFeb respNotFound).1
      ⟨63717118000000000003⟩ envFeb originDown ResponseWriter.new reqA).res
      = ⟨[], some 200, [104, 105]⟩ ∧
    (handleRequest (cacheContent NewAmbassador envFeb respNotFound).1
      ⟨63717118000000000003⟩ envFeb originDown ResponseWriter.new reqA).forwarded = [] := by
  refine ⟨by decide, by decide, by decide, by decide⟩

/-- A `Get` that finds something under the key of the latest `Set` finds the value of
that `Set`. -/
theorem Cache.Get_Set (c : Cache) (setNow now : Time) (k : String) (x : cachedContent)
    (d : Duration) (h : ((c.Set setNow k x d).Get now k).isSome = true) :
    (c.Set setNow k x d).Get now k = some x := by
  obtain ⟨e, he⟩ := Cache.Set_lookup c setNow k x d
  unfold Cache.Get at h ⊢
  rw [he] at h ⊢
  simp only at h ⊢
  split_ifs at h ⊢ with hx
  · simp at h
  · rfl

/-- C4 as amended: on a cache hit `handleRequest` writes the stored body and nothing
else of the origin response. For an entry captured by `cacheContent` from an origin
response with body `b`, whatever its status and headers, the response produced on a
hit for a new client has the body `b`, the status 200 that the first `Write` implies,
and the header map untouched; the cache is not changed and `proxyRequest` is not
invoked. -/
theorem hit_writes_stored_body (a : Ambassador) (env env2 : Env) (resp : Response)
    (now : Time) (roundTrip : Request → Option Response) (req : Request)
    (hr : resp.Body.readErr = none) (hc : resp.Body.closeErr = none)
    (hk : getURL req = getURL resp.Request)
    (hit : (((cacheContent a env resp).1.cache.Get now (getURL req)).isSome = true)) :
    handleRequest (cacheContent a env resp).1 now env2 roundTrip ResponseWriter.new req =
      ⟨(cacheContent a env resp).1, ⟨[], some 200, resp.Body.unread⟩, []⟩ := by
  rw [cacheContent_ok a env resp hr hc] at hit ⊢
  rw [hk] at hit
  simp only [handleRequest, hk, Cache.Get_Set _ _ _ _ _ _ hit]
  simp [ResponseWriter.Write, ResponseWriter.WriteHeader, ResponseWriter.new, List.lookup]

/-- C4 as amended, at the entry captured from the 404 response and a hit three
nanoseconds later. -/
theorem hit_writes_stored_body_witness :
    handleRequest (cacheContent NewAmbassador envFeb respNotFound).1
        ⟨63717118000000000003⟩ envFeb originDown ResponseWriter.new reqA =
      ⟨(cacheContent NewAmbassador envFeb respNotFound).1,
        ⟨[], some 200, respNotFound.Body.unread⟩, []⟩ :=
  hit_writes_stored_body NewAmbassador envFeb envFeb respNotFound ⟨63717118000000000003⟩
    originDown reqA (by decide) (by decide) (by decide) (by decide)

/-! ## Concurrent misses -/

/-- What `proxyRequest` writes to the client does not depend on the state of the
cache. -/
theorem proxyRequest_res (a b : Ambassador) (env : Env)
    (roundTrip : Request → Option Response) (res : ResponseWriter) (req : Request) :
    (proxyRequest a env roundTrip res req).2 = (proxyRequest b env roundTrip res req).2 := by
  unfold proxyRequest ServeHTTP
  cases roundTrip (outboundRequest req) with
  | none => rfl
  | some resp =>
    simp only
    cases hr : resp.Body.readErr with
    | some e => simp [cacheContent, ReadAll, hr]
    | none =>
      cases hc : resp.Body.closeErr with
      | some e => simp [cacheContent, ReadAll, hr, hc]
      | none => simp [cacheContent, ReadAll, NopCloser, hr, hc]

/-- Replacing a handler by one with the same request keeps the requests. -/
theorem map_req_set (h h1 : Handler) (hq : h1.req = h.req) :
    ∀ (l : List Handler) (i : Nat), l.get? i = some h →
      (l.set i h1).map Handler.req = l.map Handler.req
  | [], _, hg => by simp at hg
  | x :: l, 0, hg => by
    simp only [List.get?_cons_zero, Option.some.injEq] at hg
    simp [hg, hq]
  | x :: l, i + 1, hg => by
    simp only [List.get?_cons_succ] at hg
    simp [map_req_set h h1 hq l i hg]

/-- Replacing a handler by one with the same request that has missed just as much
keeps the requests of the handlers that have missed. -/
theorem missed_set_same (h h1 : Handler) (hq : h1.req = h.req) (hm : h1.missed = h.missed) :
    ∀ (l : List Handler) (i : Nat), l.get? i = some h →
      ((l.set i h1).filter Handler.missed).map Handler.req
        = (l.filter Handler.missed).map Handler.req
  | [], _, hg => by simp at hg
  | x :: l, 0, hg => by
    simp only [List.get?_cons_zero, Option.some.injEq] at hg
    subst hg
    cases hx : x.missed <;> simp [List.filter, hm, hx, hq]
  | x :: l, i + 1, hg => by
    simp only [List.get?_cons_succ] at hg
    have ih := missed_set_same h h1 hq hm l i hg
    cases hx : x.missed <;> simp [List.filter, hx, ih]

/-- When a handler that had not missed is replaced by one with the same request that
has, the requests of the handlers that have missed gain this request. -/
theorem missed_set_gain (h h1 : Handler) (hq : h1.req = h.req) (hn : h.missed = false)
    (hm : h1.missed = true) :
    ∀ (l : List Handler) (i : Nat), l.get? i = some h →
      (((l.set i h1).filter Handler.missed).map Handler.req).Perm
        (h.req :: (l.filter Handler.missed).map Handler.req)
  | [], _, hg => by simp at hg
  | x :: l, 0, hg => by
    simp only [List.get?_cons_zero, Option.some.injEq] at hg
    subst hg
    simp [List.filter, hm, hn, hq]
  | x :: l, i + 1, hg => by
    simp only [List.get?_cons_succ] at hg
    have ih := missed_set_gain h h1 hq hn hm l i hg
    cases hx : x.missed
    · simpa [List.filter, hx] using ih
    · simp only [List.set_cons_succ, List.filter, hx, List.map_cons]
      exact (List.Perm.cons _ ih).trans (List.Perm.swap _ _ _)

/-- A handler found after one handler has been replaced is the new one at its place,
or an old one at another place. -/
theorem get?_set_cases (h1 x : Handler) :
    ∀ (l : List Handler) (i j : Nat), (l.set i h1).get? j = some x →
      (j = i ∧ x = h1) ∨ (j ≠ i ∧ l.get? j = some x)
  | [], _, _, hg => by simp at hg
  | y :: l, 0, 0, hg => by
    simp only [List.set_cons_zero, List.get?_cons_zero, Option.some.injEq] at hg
    exact Or.inl ⟨rfl, hg.symm⟩
  | y :: l, 0, j + 1, hg => by
    simp only [List.set_cons_zero, List.get?_cons_succ] at hg
    exact Or.inr ⟨by omega, by simpa using hg⟩
  | y :: l, i + 1, 0, hg => by
    simp only [List.set_cons_succ, List.get?_cons_zero] at hg
    exact Or.inr ⟨by omega, by simpa using hg⟩
  | y :: l, i + 1, j + 1, hg => by
    simp only [List.set_cons_succ, List.get?_cons_succ] at hg
    rcases get?_set_cases h1 x l i j hg with ⟨e, hx⟩ | ⟨ne, hx⟩
    · exact Or.inl ⟨by omega, hx⟩
    · exact Or.inr ⟨by omega, by simpa using hx⟩


/-- The state in which the requests have arrived is coherent. -/
theorem arrived_coherent (a0 : Ambassador) (env : Nat → Env)
    (roundTrip : Request → Option Response) (reqs : List Request) :
    Coherent a0 env roundTrip reqs (arrived a0 reqs) := by
  refine ⟨?_, ?_, ?_⟩
  · simp [arrived, Function.comp_def]
  · have : ∀ l : List Request,
        (l.map fun r => (⟨r, .start, ResponseWriter.new⟩ : Handler)).filter Handler.missed = [] := by
      intro l
      induction l with
      | nil => rfl
      | cons r l ih => exact ih
    simp [arrived, this]
  · intro j h hg
    simp only [arrived, List.get?_eq_getElem?, List.getElem?_map, Option.map_eq_some'] at hg
    obtain ⟨r, _, rfl⟩ := hg
    exact ⟨fun _ => rfl, fun hp => by simp at hp⟩

/-- Replacing a handler keeps the state coherent when the new handler has the same
request, has missed just as much, and has written what its phase asks for. -/
theorem set_coherent (a0 : Ambassador) (env : Nat → Env)
    (roundTrip : Request → Option Response) (reqs : List Request) (s : Sys) (i : Nat)
    (h h1 : Handler) (amb1 : Ambassador)
    (hs : Coherent a0 env roundTrip reqs s) (hg : s.handlers.get? i = some h)
    (hq : h1.req = h.req) (hm : h1.missed = h.missed)
    (hw : ((h1.phase = .start ∨ h1.phase = .fetching) → h1.res = ResponseWriter.new) ∧
      (h1.phase = .fetched →
        h1.res = (proxyRequest a0 (env i) roundTrip ResponseWriter.new h1.req).2)) :
    Coherent a0 env roundTrip reqs ⟨amb1, s.forwarded, s.handlers.set i h1⟩ := by
  obtain ⟨h1s, h2s, h3s⟩ := hs
  refine ⟨?_, ?_, ?_⟩
  · show (s.handlers.set i h1).map Handler.req = reqs
    rw [map_req_set h h1 hq _ _ hg]; exact h1s
  · show s.forwarded.Perm (((s.handlers.set i h1).filter Handler.missed).map Handler.req)
    rw [missed_set_same h h1 hq hm _ _ hg]; exact h2s
  · intro j x hx
    rcases get?_set_cases h1 x _ _ _ hx with ⟨rfl, rfl⟩ | ⟨_, hx⟩
    · exact hw
    · exact h3s j x hx

/-- A handler whose lookup has missed enters `proxyRequest`: the state stays coherent
with its request added to the requests handed to `proxyRequest`. -/
theorem miss_coherent (a0 : Ambassador) (env : Nat → Env)
    (roundTrip : Request → Option Response) (reqs : List Request) (s : Sys) (i : Nat)
    (h : Handler)
    (hs : Coherent a0 env roundTrip reqs s) (hg : s.handlers.get? i = some h)
    (hp : h.phase = .start) :
    Coherent a0 env roundTrip reqs
      ⟨s.amb, s.forwarded ++ [h.req], s.handlers.set i { h with phase := .fetching }⟩ := by
  obtain ⟨h1s, h2s, h3s⟩ := hs
  refine ⟨?_, ?_, ?_⟩
  · show (s.handlers.set i { h with phase := .fetching }).map Handler.req = reqs
    rw [map_req_set h { h with phase := .fetching } rfl _ _ hg]; exact h1s
  · have hgain := missed_set_gain h { h with phase := .fetching } rfl
      (by simp [Handler.missed, hp]) (by simp [Handler.missed]) _ _ hg
    exact (List.perm_append_comm.trans (List.Perm.cons _ h2s)).trans hgain.symm
  · intro j x hx
    rcases get?_set_cases _ x _ _ _ hx with ⟨rfl, rfl⟩ | ⟨_, hx⟩
    · exact ⟨fun _ => (h3s _ h hg).1 (Or.inl hp), fun hq => by simp at hq⟩
    · exact h3s j x hx

/-- A step of any handler keeps the state coherent. -/
theorem step_coherent (clock : Nat → Time) (a0 : Ambassador) (env : Nat → Env)
    (roundTrip : Request → Option Response) (reqs : List Request) (s : Sys) (i : Nat)
    (hs : Coherent a0 env roundTrip reqs s) :
    Coherent a0 env roundTrip reqs (step clock env roundTrip s i) := by
  unfold step
  cases hg : s.handlers.get? i with
  | none => exact hs
  | some h =>
    have hw := hs.2.2 i h hg
    cases hp : h.phase with
    | start =>
      cases hget : s.amb.cache.Get (clock i) (getURL h.req) with
      | some content =>
        simp only [stepHandler, hp, hget]
        exact set_coherent a0 env roundTrip reqs s i h _ _ hs hg rfl
          (by simp only [Handler.missed, hp]; rfl)
          ⟨fun hq => by simp at hq, fun hq => by simp at hq⟩
      | none =>
        simp only [stepHandler, hp, hget]
        exact miss_coherent a0 env roundTrip reqs s i h hs hg hp
    | fetching =>
      simp only [stepHandler, hp]
      refine set_coherent a0 env roundTrip reqs s i h _ _ hs hg rfl
        (by simp only [Handler.missed, hp]; rfl) ⟨fun hq => by simp at hq, fun _ => ?_⟩
      simp only [hw.1 (Or.inr hp)]
      exact proxyRequest_res _ _ _ _ _ _
    | served =>
      simp only [stepHandler, hp]
      exact set_coherent a0 env roundTrip reqs s i h h _ hs hg rfl rfl hw
    | fetched =>
      simp only [stepHandler, hp]
      exact set_coherent a0 env roundTrip reqs s i h h _ hs hg rfl rfl hw

/-- Every run from a coherent state ends in a coherent state. -/
theorem run_coherent (clock : Nat → Time) (a0 : Ambassador) (env : Nat → Env)
    (roundTrip : Request → Option Response) (reqs : List Request) :
    ∀ (schedule : List Nat) (s : Sys), Coherent a0 env roundTrip reqs s →
      Coherent a0 env roundTrip reqs (run clock env roundTrip s schedule)
  | [], _, hs => hs
  | i :: schedule, s, hs =>
    run_coherent clock a0 env roundTrip reqs schedule _
      (step_coherent clock a0 env roundTrip reqs s i hs)

/-- A list in which every handler has missed is its own list of handlers that have
missed. -/
theorem filter_missed_all (l : List Handler) (h : ∀ x ∈ l, x.missed = true) :
    l.filter Handler.missed = l :=
  List.filter_eq_self.2 h


/-- C10 fails as stated: two concurrent misses for the key `http://svc/a`, with no
fetch in flight, result in two invocations of `proxyRequest` and not in one, with an
empty cache and also with a cache whose entry for the key has expired. -/
theorem coalescing_counterexample :
    getURL reqA = getURL reqA2 ∧
    NewAmbassador.cache.Get ⟨63717118000000000000⟩ (getURL reqA) = none ∧
    (run (fun _ => ⟨63717118000000000000⟩) (fun _ => envFeb) originPlain
      (arrived NewAmbassador [reqA, reqA2]) [0, 1, 0, 1]).forwarded = [reqA, reqA2] ∧
    ambStale.cache.Get (clockLate 0) (getURL reqA) = none ∧
    (run clockLate (fun _ => envFeb) originPlain
      (arrived ambStale [reqA, reqA2]) [1, 0, 0, 1]).forwarded = [reqA2, reqA] ∧
    [reqA, reqA2].length ≠ 1 := by
  refine ⟨by decide, by decide, by decide, by decide, by decide, by decide⟩

/-- C10 as amended: `handleRequest` does not coalesce. In whatever state a handler does
its lookup, also while fetches for the same key are in flight, a lookup that misses
(no entry, or an expired one) hands the request to `proxyRequest`. So in every run,
under every schedule, the requests handed to `proxyRequest` are those of the handlers
whose lookup missed, one invocation by each; every handler that has finished its
fetch has delivered the answer to its own request; and when all N lookups missed, there
are N invocations, one for each request. -/
theorem misses_not_coalesced (clock : Nat → Time) (env : Nat → Env)
    (roundTrip : Request → Option Response) (a : Ambassador) (reqs : List Request)
    (schedule : List Nat) :
    (∀ (s : Sys) (i : Nat) (h : Handler), s.handlers.get? i = some h → h.phase = .start →
      s.amb.cache.Get (clock i) (getURL h.req) = none →
      (step clock env roundTrip s i).forwarded = s.forwarded ++ [h.req]) ∧
    (run clock env roundTrip (arrived a reqs) schedule).handlers.map Handler.req = reqs ∧
    (run clock env roundTrip (arrived a reqs) schedule).forwarded.Perm
      (((run clock env roundTrip (arrived a reqs) schedule).handlers.filter
        Handler.missed).map Handler.req) ∧
    (∀ j h, (run clock env roundTrip (arrived a reqs) schedule).handlers.get? j = some h →
      h.phase = .fetched →
      h.res = (proxyRequest a (env j) roundTrip ResponseWriter.new h.req).2) ∧
    ((∀ h ∈ (run clock env roundTrip (arrived a reqs) schedule).handlers, h.missed = true) →
      (run clock env roundTrip (arrived a reqs) schedule).forwarded.Perm reqs ∧
      (run clock env roundTrip (arrived a reqs) schedule).forwarded.length = reqs.length) := by
  have hc := run_coherent clock a env roundTrip reqs schedule _
    (arrived_coherent a env roundTrip reqs)
  refine ⟨?_, hc.1, hc.2.1, fun j h hg hp => (hc.2.2 j h hg).2 hp, ?_⟩
  · intro s i h hg hp hget
    unfold step
    rw [hg]
    simp only [stepHandler, hp, hget]
  · intro hall
    have hp : (run clock env roundTrip (arrived a reqs) schedule).forwarded.Perm reqs := by
      have h2 := hc.2.1
      rw [filter_missed_all _ hall, hc.1] at h2
      exact h2
    exact ⟨hp, hp.length_eq⟩

/-- C10 as amended, at two concurrent requests for `http://svc/a` whose lookups both
find the expired entry, the second handler running first: both requests are handed to
`proxyRequest`. -/
theorem misses_not_coalesced_witness :
    (run clockLate (fun _ => envFeb) originPlain (arrived ambStale [reqA, reqA2])
      [1, 0, 0, 1]).forwarded.Perm [reqA, reqA2] ∧
    (run clockLate (fun _ => envFeb) originPlain (arrived ambStale [reqA, reqA2])
      [1, 0, 0, 1]).forwarded.length = [reqA, reqA2].length :=
  (misses_not_coalesced clockLate (fun _ => envFeb) originPlain ambStale [reqA, reqA2]
    [1, 0, 0, 1]).2.2.2.2 (by decide)

end Ambassador
